import Mathlib

/-!
Verification development for the template composition engine of
`@archway/create-valet-app` (`bin/create-valet-app.js`).

The engine is embedded shallowly: the on-disk project tree becomes an
in-memory association list from path segments to file data, JSON files are
stored in parsed form (a `text` entry stands for content that is not
parseable JSON), and every mutation performed by the CLI is translated to a
pure function on that state.  Machine strings are Lean `String`s / `List Char`.
-/

namespace CVA

/-- A quote character as matched by the source regexes `[\'\"]` (the
apostrophe, code 39, and the double quote). -/
def isQuote (c : Char) : Bool := c == '"' || c.toNat == 39

/-- Whitespace as matched by the `\s` regex class (ASCII subset; the
source only ever applies it to ASCII template text). -/
def wsChar (c : Char) : Bool := c == ' ' || c == '\t' || c == '\n' || c == '\r'

/-- Parsed JSON values, the result type of `JSON.parse` in `readJSONSafe`.
Objects are association lists (JS object keys are unique after parsing). -/
inductive JVal where
  | null
  | bool (b : Bool)
  | num (n : Int)
  | str (s : String)
  | arr (xs : List JVal)
  | obj (fields : List (String × JVal))

/-- JavaScript truthiness of a parsed JSON value (`NaN` cannot arise from
integral JSON numbers modelled here; `undefined` is modelled by `Option`). -/
def truthy : JVal → Bool
  | .null => false
  | .bool b => b
  | .num n => n != 0
  | .str s => s != ("")
  | .arr _ => true
  | .obj _ => true

/-- Property read on an object (`o[k]`); association-list lookup. -/
def assocGet (fs : List (String × JVal)) (k : String) : Option JVal :=
  (fs.find? (fun e => e.1 == k)).map (fun e => e.2)

/-- Property write on an object (`o[k] = v`): replaces the value in place
when the key exists, otherwise appends the key at the end, exactly as a JS
object assignment orders its keys. -/
def assocSet (fs : List (String × JVal)) (k : String) (v : JVal) : List (String × JVal) :=
  if fs.any (fun e => e.1 == k) then
    fs.map (fun e => if e.1 == k then (k, v) else e)
  else fs ++ [(k, v)]

/-- Property deletion on an object (`delete o[k]`); keys are unique in a
parsed JS object, so removing every binding of `k` coincides with `delete`. -/
def assocDelete (fs : List (String × JVal)) (k : String) : List (String × JVal) :=
  fs.filter (fun e => e.1 != k)

/-- Property read on an arbitrary JS value: objects look keys up, everything
else yields `undefined` (`none`). -/
def getField (j : JVal) (k : String) : Option JVal :=
  match j with
  | .obj fs => assocGet fs k
  | _ => none

/-- File contents in the project tree.  JSON configuration files are stored
parsed (`json j`); a `text` entry is ordinary text, which `JSON.parse` would
reject. -/
inductive FileData where
  | text (s : String)
  | json (j : JVal)

/-- A path, as the list of its segments relative to the target directory. -/
abbrev FPath := List String

/-- The mutable project tree (`targetDir` on disk): a finite map from paths
to file data, represented as an association list. -/
structure FS where
  files : List (FPath × FileData)

/-- `fs.readFileSync` / `fs.existsSync` composite: look a file up. -/
def getFile (st : FS) (p : FPath) : Option FileData :=
  (st.files.find? (fun e => e.1 == p)).map (fun e => e.2)

/-- `fs.writeFileSync`: overwrite the file if present, create it otherwise. -/
def writeFile (st : FS) (p : FPath) (d : FileData) : FS :=
  if st.files.any (fun e => e.1 == p) then
    ⟨st.files.map (fun e => if e.1 == p then (p, d) else e)⟩
  else ⟨st.files ++ [(p, d)]⟩

/-- `fs.rmSync(dir, { recursive: true, force: true })`: drop every entry at
or below the path; a missing directory is tolerated. -/
def rmTree (st : FS) (p : FPath) : FS :=
  ⟨st.files.filter (fun e => !(p.isPrefixOf e.1))⟩

/-- `fs.existsSync` specialised to directories: some entry lives at or
below the path. -/
def dirExists (st : FS) (p : FPath) : Bool :=
  st.files.any (fun e => p.isPrefixOf e.1)

/-- `fs.rmSync(p)` on a single file. -/
def rmFile (st : FS) (p : FPath) : FS :=
  ⟨st.files.filter (fun e => e.1 != p)⟩

/-- `readJSONSafe`: parse a JSON file, returning `null` (here `none`) when
the file is missing or not parseable JSON. -/
def readJSONSafe (st : FS) (p : FPath) : Option JVal :=
  match getFile st p with
  | some (.json j) => some j
  | _ => none

/-- Template kinds: the closed enumeration `ts | js | hybrid`. -/
inductive Template where
  | ts
  | js
  | hybrid
deriving DecidableEq, BEq, Repr

/-- Does the text start with the default alias token followed by the path
separator (`@/`)? -/
def headAliasMatch : List Char → Bool
  | a :: b :: _ => a == '@' && b == '/'
  | _ => false

/-- Does the text contain an occurrence of the pattern `/([\'\"])@\//`,
i.e. a quote character immediately followed by the default alias token and
the path separator? -/
def hasAliasOcc : List Char → Bool
  | [] => false
  | c :: rest => (isQuote c && headAliasMatch rest) || hasAliasOcc rest

/-- `txt.replace(/([\'\"])@\//g, $1 + toPfx)`: the global left-to-right
regex replacement used by `rewriteAliasInTree`.  On a match the quote is
kept (capture `$1`) and `@/` is replaced by `toPfx` (the configured token
followed by `/`); scanning resumes after the consumed match; on a mismatch
scanning advances by one character. -/
def rewriteAlias (toPfx : List Char) : List Char → List Char
  | [] => []
  | [c] => [c]
  | [c, d] => [c, d]
  | c :: a :: b :: rest2 =>
    if isQuote c && (a == '@' && b == '/') then c :: (toPfx ++ rewriteAlias toPfx rest2)
    else c :: rewriteAlias toPfx (a :: b :: rest2)

/-- Substring test (used only to state properties of generated contents). -/
def hasSub (pat : List Char) : List Char → Bool
  | [] => pat.isEmpty
  | c :: rest => pat.isPrefixOf (c :: rest) || hasSub pat rest

/-- Number of positions at which the pattern occurs (used only to state
properties of generated contents, e.g. "exactly one route"). -/
def countSub (pat : List Char) : List Char → Nat
  | [] => 0
  | c :: rest => (if pat.isPrefixOf (c :: rest) then 1 else 0) + countSub pat rest

/-- String-level wrapper of `hasSub`. -/
def hasSubStr (pat s : String) : Bool := hasSub pat.data s.data

/-- After `(['"])@(['"])` the vite-alias regex requires `\s*:\s*path\.resolve`;
on success return the remainder after `path.resolve`. -/
def colonPathResolve (l : List Char) : Option (List Char) :=
  match l.dropWhile wsChar with
  | ':' :: l2 =>
    let l3 := l2.dropWhile wsChar
    if (("path.resolve").data).isPrefixOf l3 then some (l3.drop (("path.resolve").data).length)
    else none
  | _ => none

/-- Fuel-indexed scanner for the global replacement
`vc.replace(/(['"])@(['"])\s*:\s*path\.resolve/g, $1 + tok + $2 + ": path.resolve")`
used on the vite config.  The fuel is instantiated with the text length,
which bounds the number of scanning steps. -/
def viteScanF (tokD : List Char) : Nat → List Char → List Char
  | 0, l => l
  | _ + 1, [] => []
  | f + 1, c :: rest =>
    if isQuote c then
      match rest with
      | d :: e :: rest2 =>
        if d == '@' && isQuote e then
          match colonPathResolve rest2 with
          | some rem => c :: (tokD ++ (e :: ((": path.resolve").data ++ viteScanF tokD f rem)))
          | none => c :: viteScanF tokD f rest
        else c :: viteScanF tokD f rest
      | _ => c :: viteScanF tokD f rest
    else c :: viteScanF tokD f rest

/-- The vite-config alias-key replacement of `applyFeatureToggles`. -/
def viteAliasReplace (tok : String) (s : String) : String :=
  ⟨viteScanF tok.data s.data.length s.data⟩

/-- Fuel-indexed replace-all, `raw.split(pat).join(rep)`; fuel is
instantiated with the text length. -/
def replaceAllSubF (pat rep : List Char) : Nat → List Char → List Char
  | 0, l => l
  | _ + 1, [] => []
  | f + 1, c :: rest =>
    if pat.isPrefixOf (c :: rest) && decide (0 < pat.length) then
      rep ++ replaceAllSubF pat rep f ((c :: rest).drop pat.length)
    else c :: replaceAllSubF pat rep f rest

/-- Fuel-indexed replace-first, `base.replace(pat, rep)` with a plain string
pattern (JS replaces only the first occurrence); fuel is the text length. -/
def replaceFirstF (pat rep : List Char) : Nat → List Char → List Char
  | 0, l => l
  | _ + 1, [] => []
  | f + 1, c :: rest =>
    if pat.isPrefixOf (c :: rest) && decide (0 < pat.length) then
      rep ++ (c :: rest).drop pat.length
    else c :: replaceFirstF pat rep f rest

/-- String-level wrapper of `replaceFirstF`. -/
def replaceFirst (s pat rep : String) : String :=
  ⟨replaceFirstF pat.data rep.data s.data.length s.data⟩

/-- `path.basename` (POSIX): drop trailing separators, then keep the part
after the last separator. -/
def posixBasename (s : String) : String :=
  ⟨(((s.data.reverse).dropWhile (fun c => c == '/')).takeWhile (fun c => c != '/')).reverse⟩

/-- Characters the slug regex `[^a-z0-9-_.]` keeps. -/
def validPkgChar (c : Char) : Bool :=
  ('a' ≤ c && c ≤ 'z') || ('0' ≤ c && c ≤ '9') || c == '-' || c == '_' || c == '.'

/-- `normalizePkgName`: basename, lowercased, characters outside
`[a-z0-9-_.]` replaced by `-`, empty result replaced by the fixed fallback.
`Char.toLower` only maps ASCII capitals; any non-ASCII character (whatever
its JS lowercase image) is outside the kept class and becomes `-` in both
semantics, so the composition agrees with the source. -/
def normalizePkgName (input : String) : String :=
  let base : String :=
    ⟨((posixBasename input).data.map Char.toLower).map (fun c => if validPkgChar c then c else '-')⟩
  if base == ("") then ("valet-app") else base

/-- JS truthiness of an optional environment/config string (`undefined` and
the empty string are falsy). -/
def truthyOptStr : Option String → Bool
  | none => false
  | some s => s != ("")

/-- Split on a separator character, keeping empty segments, exactly like
the JS `ver.split('.')` (and the standard single-character `splitOn`). -/
def splitOnChar (sep : Char) : List Char → List (List Char)
  | [] => [[]]
  | c :: rest =>
    if c == sep then [] :: splitOnChar sep rest
    else
      match splitOnChar sep rest with
      | [] => [[c]]
      | g :: gs => (c :: g) :: gs

/-- `ver.split('.')` as used by `resolveValetMinor`. -/
def splitDots (s : String) : List String :=
  (splitOnChar ('.') s.data).map (fun l => (⟨l⟩ : String))

/-- `resolveValetMinor`: the env override when truthy, else the packaged
`cva.valetMinor` when truthy, else MAJOR.MINOR of the tool version
(defaulting the version to `0.30.0`, an absent or empty part to `0`/`30`). -/
def resolveValetMinor (env cva ver : Option String) : String :=
  if truthyOptStr env then env.getD ("")
  else if truthyOptStr cva then cva.getD ("")
  else
    let v := if truthyOptStr ver then ver.getD ("") else ("0.30.0")
    let parts := splitDots v
    let major := if (parts.getD 0 ("")) == ("") then ("0") else parts.getD 0 ("")
    let minor := if (parts.getD 1 ("")) == ("") then ("30") else parts.getD 1 ("")
    major ++ (".") ++ minor

/-- `valetMinorRange`: caret range anchored at patch zero of the minor. -/
def valetMinorRange (minor : String) : String := ("^") ++ minor ++ (".0")

/-- `safePkgMutate`: read the manifest with `readJSONSafe`; when unreadable
do nothing, otherwise apply the mutator and write the result back. -/
def safePkgMutate (st : FS) (p : FPath) (mutator : JVal → JVal) : FS :=
  match readJSONSafe st p with
  | none => st
  | some pkg => writeFile st p (.json (mutator pkg))

/-- The dependency-removal mutators of `applyFeatureToggles`:
`if (pkg.dependencies && pkg.dependencies[dep]) delete pkg.dependencies[dep]`.
Reading a property of a non-object yields `undefined` (falsy), so every
non-object or falsy shape leaves the manifest unchanged. -/
def removeDepMutator (dep : String) (pkg : JVal) : JVal :=
  match pkg with
  | .obj fs =>
    match assocGet fs ("dependencies") with
    | some (.obj dfs) =>
      match assocGet dfs dep with
      | some v =>
        if truthy v then .obj (assocSet fs ("dependencies") (.obj (assocDelete dfs dep)))
        else pkg
      | none => pkg
    | _ => pkg
  | _ => pkg

/-- The structured tsconfig/jsconfig rewrite: when
`compilerOptions.paths['@/*']` is present (and truthy), add the mapping
under the configured key (JS assignment appends new keys at the end) and
then delete the default key; any other shape leaves the value unchanged. -/
def rewriteTsconfigJson (tok : String) (j : JVal) : JVal :=
  match j with
  | .obj jfs =>
    match assocGet jfs ("compilerOptions") with
    | some (.obj cofs) =>
      match assocGet cofs ("paths") with
      | some (.obj pfs) =>
        match assocGet pfs ("@/*") with
        | some v =>
          if truthy v then
            .obj (assocSet jfs ("compilerOptions") (.obj (assocSet cofs ("paths")
              (.obj (assocDelete (assocSet pfs (tok ++ ("/*")) v) ("@/*"))))))
          else j
        | none => j
      | _ => j
    | _ => j
  | _ => j

/-- The loose fallback when the tsconfig/jsconfig is not parseable JSON:
`raw.split('"@/*"').join('"' + tok + '/*"')`, swapping the quoted key only. -/
def fallbackSwapKey (tok : String) (raw : String) : String :=
  ⟨replaceAllSubF (("\"@/*\"").data) ((("\"") ++ tok ++ ("/*\"")).data) raw.data.length raw.data⟩

/-- `endsWith` on the character lists (the byte-position variant of the
standard library does not reduce in the kernel). -/
def strEndsWith (s pat : String) : Bool := pat.data.isSuffixOf s.data

/-- Does a file name match the source-file extension test `/\.(t|j)sx?$/`? -/
def srcExtMatch (name : String) : Bool :=
  strEndsWith name (".ts") || strEndsWith name (".tsx")
    || strEndsWith name (".js") || strEndsWith name (".jsx")

/-- Is the entry a source file the alias rewriter visits: under `src/` with
a matching extension? -/
def srcFileCond (p : FPath) : Bool :=
  ([("src")] : FPath).isPrefixOf p && srcExtMatch (p.getLastD (""))

/-- `rewriteAliasInTree`: walk the `src` tree and, in every file whose name
matches the source extensions, replace quote-`@/` occurrences by the
quote followed by `toPfx` (the new token plus `/`).  The source hardcodes
the default token in the regex regardless of its `fromPrefix` argument. -/
def rewriteAliasInTree (toPfx : String) (st : FS) : FS :=
  ⟨st.files.map (fun e =>
    if srcFileCond e.1 then
      match e.2 with
      | .text s => (e.1, .text ⟨rewriteAlias toPfx.data s.data⟩)
      | d => (e.1, d)
    else e)⟩

/-- Extensions of the React source files (`jsx` for the JS template,
`tsx` otherwise), per the `exts` table of `applyFeatureToggles`. -/
def srcExtName (isJS : Bool) : String := if isJS then ("jsx") else ("tsx")

/-- Extensions of the plain config/store sources (`js`/`ts`). -/
def cfgExtName (isJS : Bool) : String := if isJS then ("js") else ("ts")

/-- `files.main` of `applyFeatureToggles`. -/
def mainPath (isJS : Bool) : FPath := [("src"), ("main.") ++ srcExtName isJS]

/-- `files.app`. -/
def appFilePath (isJS : Bool) : FPath := [("src"), ("App.") ++ srcExtName isJS]

/-- `files.quickstart`. -/
def quickstartPath (isJS : Bool) : FPath :=
  [("src"), ("pages"), ("start"), ("Quickstart.") ++ srcExtName isJS]

/-- `files.secondDir`. -/
def secondDirPath : FPath := [("src"), ("pages"), ("second")]

/-- `files.storeDir`. -/
def storeDirPath : FPath := [("src"), ("store")]

/-- `files.viteConfig`. -/
def viteConfigPath (isJS : Bool) : FPath := [("vite.config.") ++ cfgExtName isJS]

/-- `files.tsconfigApp`. -/
def tsconfigAppPath : FPath := [("tsconfig.app.json")]

/-- `files.jsconfig`. -/
def jsconfigPath : FPath := [("jsconfig.json")]

/-- `files.pkg`. -/
def pkgJsonPath : FPath := [("package.json")]

/-- The AGENTS.md output path of `generateAgentsDoc`. -/
def agentsPath : FPath := [("AGENTS.md")]

/-- `mainNoRouter`, JS flavor (literal from the source). -/
def mainNoRouterJS : String :=
  ("import React from \"react\";\n")
  ++ ("import ReactDOM from \"react-dom/client\";\n")
  ++ ("import \"@/presets/globalPresets\";\n")
  ++ ("import \x7b App \x7d from \"@/App\";\n")
  ++ ("\n")
  ++ ("ReactDOM.createRoot(document.getElementById(\"root\")).render(\n")
  ++ ("  <React.StrictMode>\n")
  ++ ("    <App />\n")
  ++ ("  </React.StrictMode>,\n")
  ++ (");\n")

/-- `mainNoRouter`, TS flavor (differs by the non-null assertion). -/
def mainNoRouterTS : String :=
  ("import React from \"react\";\n")
  ++ ("import ReactDOM from \"react-dom/client\";\n")
  ++ ("import \"@/presets/globalPresets\";\n")
  ++ ("import \x7b App \x7d from \"@/App\";\n")
  ++ ("\n")
  ++ ("ReactDOM.createRoot(document.getElementById(\"root\")!).render(\n")
  ++ ("  <React.StrictMode>\n")
  ++ ("    <App />\n")
  ++ ("  </React.StrictMode>,\n")
  ++ (");\n")

/-- `appNoRouter`: the router-free root component (the JS and TS literals
in the source are identical). -/
def appNoRouterContent : String :=
  ("import \x7b useInitialTheme \x7d from \"@archway/valet\";\n")
  ++ ("import QuickstartPage from \"@/pages/start/Quickstart\";\n")
  ++ ("\n")
  ++ ("export function App() \x7b\n")
  ++ ("  useInitialTheme(\n")
  ++ ("    \x7b\n")
  ++ ("      fonts: \x7b\n")
  ++ ("        heading: \"Kumbh Sans\",\n")
  ++ ("        body: \"Inter\",\n")
  ++ ("        mono: \"JetBrains Mono\",\n")
  ++ ("        button: \"Kumbh Sans\",\n")
  ++ ("      \x7d,\n")
  ++ ("    \x7d,\n")
  ++ ("    [\"Kumbh Sans\", \"JetBrains Mono\", \"Inter\"],\n")
  ++ ("  );\n")
  ++ ("  return <QuickstartPage />;\n")
  ++ ("\x7d\n")

/-- `qsNoNav` / `qsMinimal`: the Quickstart page without navigation (all
four literals in the source denote this same text). -/
def qsPlainContent : String :=
  ("import \x7b Surface, Stack, Box, Typography \x7d from \"@archway/valet\";\n")
  ++ ("\n")
  ++ ("export default function QuickstartPage() \x7b\n")
  ++ ("  return (\n")
  ++ ("    <Surface>\n")
  ++ ("      <Box alignX=\"center\" centerContent>\n")
  ++ ("        <Stack>\n")
  ++ ("          <Typography>Welcome to Valet</Typography>\n")
  ++ ("        </Stack>\n")
  ++ ("      </Box>\n")
  ++ ("    </Surface>\n")
  ++ ("  );\n")
  ++ ("\x7d\n")

/-- The shared tail of `appRouterMinimal` (theme call, fallback, single
lazily-loaded route), identical in both flavors. -/
def appRouterMinimalTail : String :=
  ("\n")
  ++ ("export function App() \x7b\n")
  ++ ("  useInitialTheme(\n")
  ++ ("    \x7b\n")
  ++ ("      fonts: \x7b\n")
  ++ ("        heading: \"Kumbh Sans\",\n")
  ++ ("        body: \"Inter\",\n")
  ++ ("        mono: \"JetBrains Mono\",\n")
  ++ ("        button: \"Kumbh Sans\",\n")
  ++ ("      \x7d,\n")
  ++ ("    \x7d,\n")
  ++ ("    [\"Kumbh Sans\", \"JetBrains Mono\", \"Inter\"],\n")
  ++ ("  );\n")
  ++ ("\n")
  ++ ("  const Fallback = (\n")
  ++ ("    <Surface>\n")
  ++ ("      <Stack sx=\x7b\x7b padding: \"2rem\", alignItems: \"center\" \x7d\x7d>\n")
  ++ ("        <Typography variant=\"subtitle\">Loading…</Typography>\n")
  ++ ("      </Stack>\n")
  ++ ("    </Surface>\n")
  ++ ("  );\n")
  ++ ("\n")
  ++ ("  return (\n")
  ++ ("    <Suspense fallback=\x7bFallback\x7d>\n")
  ++ ("      <Routes>\n")
  ++ ("        <Route path=\"/\" element=\x7b<QuickstartPage />\x7d />\n")
  ++ ("      </Routes>\n")
  ++ ("    </Suspense>\n")
  ++ ("  );\n")
  ++ ("\x7d\n")

/-- `appRouterMinimal`, JS flavor. -/
def appRouterMinimalJS : String :=
  ("import React, \x7b Suspense, lazy \x7d from \"react\";\n")
  ++ ("import \x7b Routes, Route \x7d from \"react-router-dom\";\n")
  ++ ("import \x7b useInitialTheme, Surface, Stack, Typography \x7d from \"@archway/valet\";\n")
  ++ ("\n")
  ++ ("const page = (p) => lazy(() => p().then((m) => (\x7b default: m.default \x7d)));\n")
  ++ ("const QuickstartPage = page(() => import(\"@/pages/start/Quickstart\"));\n")
  ++ appRouterMinimalTail

/-- `appRouterMinimal`, TS flavor. -/
def appRouterMinimalTS : String :=
  ("import React, \x7b Suspense, lazy \x7d from \"react\";\n")
  ++ ("import \x7b Routes, Route \x7d from \"react-router-dom\";\n")
  ++ ("import \x7b useInitialTheme, Surface, Stack, Typography \x7d from \"@archway/valet\";\n")
  ++ ("\n")
  ++ ("const page = <T extends \x7b default: React.ComponentType \x7d>(\n")
  ++ ("  p: () => Promise<T>,\n")
  ++ (") =>\n")
  ++ ("  lazy(() => p().then((m) => (\x7b default: m.default \x7d)));\n")
  ++ ("\n")
  ++ ("const QuickstartPage = page(() => import(\"@/pages/start/Quickstart\"));\n")
  ++ appRouterMinimalTail

/-- The resolved flag set handed to `applyFeatureToggles`. -/
structure ToggleArgs where
  template : Template
  router : Bool
  zustand : Bool
  minimal : Bool
  pathAlias : String

/-- The configuration half of the path-alias stage: rewrite the vite alias
key, then the tsconfig (TS/hybrid) or jsconfig (JS) path mapping —
structured when the config is parseable JSON, a literal key swap
otherwise. -/
def aliasCfgStage (isJS : Bool) (tok : String) (st : FS) : FS :=
  let s1 :=
    match getFile st (viteConfigPath isJS) with
    | some (.text vc) => writeFile st (viteConfigPath isJS) (.text (viteAliasReplace tok vc))
    | _ => st
  let s2 :=
    if !isJS then
      match getFile s1 tsconfigAppPath with
      | some (.json j) => writeFile s1 tsconfigAppPath (.json (rewriteTsconfigJson tok j))
      | some (.text raw) => writeFile s1 tsconfigAppPath (.text (fallbackSwapKey tok raw))
      | none => s1
    else s1
  if isJS then
    match getFile s2 jsconfigPath with
    | some (.json j) => writeFile s2 jsconfigPath (.json (rewriteTsconfigJson tok j))
    | some (.text raw) => writeFile s2 jsconfigPath (.text (fallbackSwapKey tok raw))
    | none => s2
  else s2

/-- The path-alias stage of `applyFeatureToggles` (runs only when the token
is truthy and differs from `@`): the config rewrites followed by the `@/`
import-prefix rewrite across the `src` tree. -/
def aliasStage (isJS : Bool) (tok : String) (st : FS) : FS :=
  rewriteAliasInTree (tok ++ ("/")) (aliasCfgStage isJS tok st)

/-- `applyFeatureToggles`: router toggle (full-file replacements and the
secondary-page deletion), then the zustand toggle (dependency removal and
store-directory deletion), then the path-alias stage. -/
def applyFeatureToggles (a : ToggleArgs) (st : FS) : FS :=
  let isJS := a.template == Template.js
  let st1 :=
    if !a.router then
      let s := safePkgMutate st pkgJsonPath (removeDepMutator ("react-router-dom"))
      let s := writeFile s (mainPath isJS) (.text (if isJS then mainNoRouterJS else mainNoRouterTS))
      let s := writeFile s (appFilePath isJS) (.text appNoRouterContent)
      let s := writeFile s (quickstartPath isJS) (.text qsPlainContent)
      rmTree s secondDirPath
    else if a.minimal then
      let s := writeFile st (appFilePath isJS) (.text (if isJS then appRouterMinimalJS else appRouterMinimalTS))
      let s := writeFile s (quickstartPath isJS) (.text qsPlainContent)
      rmTree s secondDirPath
    else st
  let st2 :=
    if !a.zustand then
      rmTree (safePkgMutate st1 pkgJsonPath (removeDepMutator ("zustand"))) storeDirPath
    else st1
  if (a.pathAlias != ("")) && (a.pathAlias != ("@")) then aliasStage isJS a.pathAlias st2 else st2

/-- Error conditions of the generation pipeline.  `manifestInvalid` is the
explicit `process.exit(1)` after `readJSONSafe` on the copied manifest;
`typeError` is a JavaScript strict-mode `TypeError` surfacing through
`main().catch`; `docTemplateMissing` is the condition the spec names for a
missing documentation template. -/
inductive GenError where
  | manifestInvalid
  | typeError
  | docTemplateMissing
deriving DecidableEq, Repr

/-- A strict-mode property assignment `j[k] = v`: updates objects, is
silently dropped on (extensible) arrays as far as later JSON serialization
is concerned, and throws `TypeError` on primitives. -/
def jsSetProp (j : JVal) (k : String) (v : JVal) : Except GenError JVal :=
  match j with
  | .obj fs => .ok (.obj (assocSet fs k v))
  | .arr xs => .ok (.arr xs)
  | _ => .error .typeError

/-- The guard `appPkg.dependencies['@archway/valet'] !== range`. -/
def valetNe (dfs : List (String × JVal)) (range : String) : Bool :=
  match assocGet dfs ("@archway/valet") with
  | some (.str s) => s != range
  | some _ => true
  | none => true

/-- The try-block of `main` that pins the `@archway/valet` range: replace a
falsy `dependencies` by a fresh object holding the range; write the range
into an object `dependencies` unless it is already there; any `TypeError`
raised on other shapes is swallowed by the empty `catch`. -/
def valetDepStep (range : String) (pkg : JVal) : JVal :=
  match pkg with
  | .obj fs =>
    match assocGet fs ("dependencies") with
    | some d =>
      if truthy d then
        match d with
        | .obj dfs =>
          if valetNe dfs range then
            .obj (assocSet fs ("dependencies") (.obj (assocSet dfs ("@archway/valet") (.str range))))
          else pkg
        | _ => pkg
      else .obj (assocSet fs ("dependencies") (.obj [(("@archway/valet"), JVal.str range)]))
    | none => .obj (assocSet fs ("dependencies") (.obj [(("@archway/valet"), JVal.str range)]))
  | _ => pkg

/-- The manifest portion of `main` after the template copy: abort when
`readJSONSafe` yields a falsy value (`if (!appPkg) ... exit(1)`), then
assign the normalized name (a strict-mode property assignment) and run the
valet-range step. -/
def manifestStage (dirArg : String) (env cva ver : Option String)
    (readResult : Option JVal) : Except GenError JVal :=
  match readResult with
  | none => .error .manifestInvalid
  | some pkg =>
    if !truthy pkg then .error .manifestInvalid
    else
      match jsSetProp pkg ("name") (.str (normalizePkgName dirArg)) with
      | .error e => .error e
      | .ok pkg1 => .ok (valetDepStep (valetMinorRange (resolveValetMinor env cva ver)) pkg1)

/-- `LANG_NOTE` of `generateAgentsDoc`. -/
def langNote (t : Template) : String :=
  if t == Template.js then ("This is a JavaScript-only template; there is no typecheck step.")
  else if t == Template.ts then ("This is a TypeScript template.")
  else ("This is a hybrid template: TypeScript by default, JavaScript files allowed.")

/-- `AGENT_COMMANDS` of `generateAgentsDoc` (typecheck line dropped for the
JS template). -/
def agentCommands (isJS : Bool) : String :=
  String.intercalate ("\n") (List.filterMap id
    [ some ("- Lint: `npm run -s lint:agent`"),
      some ("- Fix lint: `npm run -s lint:fix:agent`"),
      (if !isJS then some ("- Typecheck: `npm run -s typecheck:agent`") else none),
      some ("- Format check: `npm run -s format:agent`"),
      some ("- Format write: `npm run -s format:fix:agent`"),
      some ("- Build: `npm run -s build:agent`") ])

/-- `FEATURES_LIST` of `generateAgentsDoc`. -/
def featuresList (router zustand minimal : Bool) (pathAlias : String) : String :=
  let tokenShown := if pathAlias == ("") then ("@") else pathAlias
  String.intercalate ("\n")
    [ ("- Router: ") ++ (if router then ("enabled") else ("disabled")),
      ("- Zustand: ") ++ (if zustand then ("enabled") else ("disabled")),
      ("- Minimal mode: ") ++ (if minimal then ("on") else ("off")),
      ("- Path alias token: `") ++ tokenShown ++ ("` (import from `") ++ tokenShown ++ ("/...`)") ]

/-- `DOD_LIST` of `generateAgentsDoc`. -/
def dodList (isJS : Bool) : String :=
  String.intercalate ("\n")
    [ (if isJS then ("- Typecheck: n/a for JS template.") else ("- TypeScript typechecks clean.")),
      ("- Build succeeds."),
      ("- Lint/format clean or auto-fixed.") ]

/-- The placeholder substitution chain of `generateAgentsDoc` (JS `replace`
with a string pattern replaces the first occurrence only). -/
def renderAgentsDoc (base : String) (t : Template) (router zustand minimal : Bool)
    (pathAlias : String) : String :=
  let isJS := t == Template.js
  replaceFirst (replaceFirst (replaceFirst (replaceFirst base
    ("\x7b\x7bLANG_NOTE\x7d\x7d") (langNote t))
    ("\x7b\x7bAGENT_COMMANDS\x7d\x7d") (agentCommands isJS))
    ("\x7b\x7bFEATURES_LIST\x7d\x7d") (featuresList router zustand minimal pathAlias))
    ("\x7b\x7bDOD_LIST\x7d\x7d") (dodList isJS)

/-- `generateAgentsDoc`: when guidance is not requested, delete any
existing AGENTS.md and return; when the shared template asset cannot be
read (`baseAsset = none`), return with the tree untouched (the source
comment reads "If missing, skip gracefully"); otherwise render and write
the document.  No path of the source function raises an error. -/
def generateAgentsDoc (includeDocs : Bool) (t : Template) (router zustand minimal : Bool)
    (pathAlias : String) (baseAsset : Option String) (st : FS) : Except GenError FS :=
  if !includeDocs then .ok (rmFile st agentsPath)
  else
    match baseAsset with
    | none => .ok st
    | some base =>
      .ok (writeFile st agentsPath (.text (renderAgentsDoc base t router zustand minimal pathAlias)))

/-- Modelled from the spec: the vite config of the template trees (the
`templates/` directory itself ships outside the analysed sources).  The
build-tool alias map carries one mapping whose key is the alias token and
whose filesystem target is the `src` root; the default template uses the
token `@`. -/
def viteConfigText (tok : String) : String :=
  ("import path from \"path\";\n")
  ++ ("export default \x7b resolve: \x7b alias: \x7b \"") ++ tok
  ++ ("\": path.resolve(__dirname, \"./src\") \x7d \x7d \x7d;\n")

/-- Modelled from the spec: the type-resolution config of the template
trees (tsconfig.app.json for TS/hybrid, jsconfig.json for JS), carrying one
path mapping `tok/*` to the `src` root. -/
def typeCfgJson (tok : String) : JVal :=
  .obj [(("compilerOptions"),
    .obj [(("paths"), .obj [((tok ++ ("/*")), .arr [.str ("./src/*")])])])]

/-- Modelled from the spec: the template entry point (routing enabled by
default, alias imports under the default token). -/
def tmplMainContent : String :=
  ("import React from \"react\";\n")
  ++ ("import ReactDOM from \"react-dom/client\";\n")
  ++ ("import \x7b BrowserRouter \x7d from \"react-router-dom\";\n")
  ++ ("import \"@/presets/globalPresets\";\n")
  ++ ("import \x7b App \x7d from \"@/App\";\n")
  ++ ("\n")
  ++ ("ReactDOM.createRoot(document.getElementById(\"root\")).render(\n")
  ++ ("  <React.StrictMode>\n")
  ++ ("    <BrowserRouter>\n")
  ++ ("      <App />\n")
  ++ ("    </BrowserRouter>\n")
  ++ ("  </React.StrictMode>,\n")
  ++ (");\n")

/-- Modelled from the spec: the template root component with routes to the
landing and secondary pages. -/
def tmplAppContent : String :=
  ("import \x7b Routes, Route \x7d from \"react-router-dom\";\n")
  ++ ("import \x7b useInitialTheme \x7d from \"@archway/valet\";\n")
  ++ ("import QuickstartPage from \"@/pages/start/Quickstart\";\n")
  ++ ("import SecondPage from \"@/pages/second/SecondPage\";\n")
  ++ ("\n")
  ++ ("export function App() \x7b\n")
  ++ ("  useInitialTheme();\n")
  ++ ("  return (\n")
  ++ ("    <Routes>\n")
  ++ ("      <Route path=\"/\" element=\x7b<QuickstartPage />\x7d />\n")
  ++ ("      <Route path=\"/second\" element=\x7b<SecondPage />\x7d />\n")
  ++ ("    </Routes>\n")
  ++ ("  );\n")
  ++ ("\x7d\n")

/-- Modelled from the spec: the template landing page (links to the
secondary page while routing is present). -/
def tmplQuickstartContent : String :=
  ("import \x7b useNavigate \x7d from \"react-router-dom\";\n")
  ++ ("import \x7b Surface, Stack, Box, Typography, Button \x7d from \"@archway/valet\";\n")
  ++ ("\n")
  ++ ("export default function QuickstartPage() \x7b\n")
  ++ ("  const navigate = useNavigate();\n")
  ++ ("  return (\n")
  ++ ("    <Surface>\n")
  ++ ("      <Box alignX=\"center\" centerContent>\n")
  ++ ("        <Stack>\n")
  ++ ("          <Typography>Welcome to Valet</Typography>\n")
  ++ ("          <Button onClick=\x7b() => navigate(\"/second\")\x7d>Second page</Button>\n")
  ++ ("        </Stack>\n")
  ++ ("      </Box>\n")
  ++ ("    </Surface>\n")
  ++ ("  );\n")
  ++ ("\x7d\n")

/-- Modelled from the spec: the template secondary page. -/
def tmplSecondContent : String :=
  ("import \x7b Surface, Typography \x7d from \"@archway/valet\";\n")
  ++ ("import \x7b useAppStore \x7d from \"@/store/useAppStore\";\n")
  ++ ("\n")
  ++ ("export default function SecondPage() \x7b\n")
  ++ ("  return <Surface><Typography>Second</Typography></Surface>;\n")
  ++ ("\x7d\n")

/-- Modelled from the spec: the template global store module. -/
def tmplStoreContent : String :=
  ("import \x7b create \x7d from \"zustand\";\n")
  ++ ("\n")
  ++ ("export const useAppStore = create(() => (\x7b count: 0 \x7d));\n")

/-- Modelled from the spec: the template preset module. -/
def tmplPresetsContent : String :=
  ("import \x7b definePreset \x7d from \"@archway/valet\";\n")
  ++ ("\n")
  ++ ("definePreset(\"frosted\", () => (\"\"));\n")

/-- Modelled from the spec: the template manifest, holding the UI-library,
router and store dependencies. -/
def tmplPkgJson : JVal :=
  .obj
    [ (("name"), .str ("valet-app-template")),
      (("version"), .str ("0.0.0")),
      (("dependencies"),
        .obj
          [ (("@archway/valet"), .str ("^0.30.0")),
            (("react"), .str ("^18.3.0")),
            (("react-dom"), .str ("^18.3.0")),
            (("react-router-dom"), .str ("^6.26.0")),
            (("zustand"), .str ("^4.5.0")) ]) ]

/-- Modelled from the spec: the copied template tree for each template
kind — entry point, root component, landing and secondary pages, store and
preset modules, build-tool and type-resolution configs, and the manifest. -/
def templateTree (t : Template) : FS :=
  let isJS := t == Template.js
  ⟨[ (pkgJsonPath, .json tmplPkgJson),
     (mainPath isJS, .text tmplMainContent),
     (appFilePath isJS, .text tmplAppContent),
     (quickstartPath isJS, .text tmplQuickstartContent),
     ([("src"), ("pages"), ("second"), ("SecondPage.") ++ srcExtName isJS], .text tmplSecondContent),
     ([("src"), ("store"), ("useAppStore.") ++ cfgExtName isJS], .text tmplStoreContent),
     ([("src"), ("presets"), ("globalPresets.") ++ cfgExtName isJS], .text tmplPresetsContent),
     (viteConfigPath isJS, .text (viteConfigText ("@"))),
     ((if isJS then jsconfigPath else tsconfigAppPath), .json (typeCfgJson ("@"))) ]⟩

/-- The type-resolution config file of a template kind. -/
def typeCfgPathOf (t : Template) : FPath :=
  if t == Template.js then jsconfigPath else tsconfigAppPath

/-- Number of route elements (`<Route ` occurrences) in a component. -/
def routeCount (c : String) : Nat := countSub (("<Route ").data) c.data

/-- Does the generated tree have the router-plus-minimal shape promised for
a template kind and store setting: a root component with exactly one route
to the lazily-loaded landing page and a loading fallback, no secondary-page
directory, and the router dependency still present? -/
def c2Shape (t : Template) (store : Bool) : Bool :=
  let res := applyFeatureToggles ⟨t, true, store, true, ("@")⟩ (templateTree t)
  let isJS := t == Template.js
  (match getFile res (appFilePath isJS) with
   | some (FileData.text c) =>
       (routeCount c == 1) && hasSubStr ("lazy(") c && hasSubStr ("Suspense fallback=") c
         && hasSubStr ("Loading") c && hasSubStr ("pages/start/Quickstart") c
   | _ => false)
  && !(dirExists res secondDirPath)
  && (match readJSONSafe res pkgJsonPath with
      | some p =>
        (match getField p ("dependencies") with
         | some (JVal.obj dfs) => (assocGet dfs ("react-router-dom")).isSome
         | _ => false)
      | _ => false)

/-- Does the generated tree have the router-free shape: an entry point that
renders the root component directly with no routing import, a root
component rendering only the landing page, no secondary-page directory, and
no router dependency in the manifest? -/
def c3Shape (t : Template) (store minimal : Bool) : Bool :=
  let res := applyFeatureToggles ⟨t, false, store, minimal, ("@")⟩ (templateTree t)
  let isJS := t == Template.js
  (match getFile res (mainPath isJS) with
   | some (FileData.text c) => hasSubStr ("<App />") c && !(hasSubStr ("react-router") c)
   | _ => false)
  && (match getFile res (appFilePath isJS) with
      | some (FileData.text c) =>
        hasSubStr ("QuickstartPage") c && !(hasSubStr ("react-router") c)
          && !(hasSubStr ("Route") c)
      | _ => false)
  && !(dirExists res secondDirPath)
  && (match readJSONSafe res pkgJsonPath with
      | some p =>
        (match getField p ("dependencies") with
         | some (JVal.obj dfs) => (assocGet dfs ("react-router-dom")).isNone
         | _ => false)
      | _ => false)

/-- Does the generated tree satisfy the joint store-off invariant: no store
directory and no zustand dependency entry? -/
def c4Shape (t : Template) (router minimal : Bool) : Bool :=
  let res := applyFeatureToggles ⟨t, router, false, minimal, ("@")⟩ (templateTree t)
  !(dirExists res storeDirPath)
  && (match readJSONSafe res pkgJsonPath with
      | some p =>
        (match getField p ("dependencies") with
         | some (JVal.obj dfs) => (assocGet dfs ("zustand")).isNone
         | _ => false)
      | _ => false)

/-- Did the generation step succeed (no abort)? -/
def stageOk (r : Except GenError JVal) : Bool :=
  match r with
  | .ok _ => true
  | .error _ => false

/-- Did the documentation stage succeed (no abort)? -/
def docOk (r : Except GenError FS) : Bool :=
  match r with
  | .ok _ => true
  | .error _ => false

/-- A field of the merged manifest (for stating merger results). -/
def mergedField (r : Except GenError JVal) (k : String) : Option JVal :=
  match r with
  | .ok p => getField p k
  | .error _ => none

/-- A dependency entry of the merged manifest. -/
def mergedDepRange (r : Except GenError JVal) (dep : String) : Option JVal :=
  match r with
  | .ok p =>
    (match getField p ("dependencies") with
     | some (JVal.obj dfs) => assocGet dfs dep
     | _ => none)
  | .error _ => none

/-- Is a parsed JSON value an object? -/
def isObjJ : JVal → Bool
  | .obj _ => true
  | _ => false

/-- Dependency lookup inside a parsed manifest. -/
def depEntry (pkg : JVal) (dep : String) : Option JVal :=
  match getField pkg ("dependencies") with
  | some (JVal.obj dfs) => assocGet dfs dep
  | _ => none

/-- The slug computed by `normalizePkgName` before the fallback check. -/
def slugOf (s : String) : String :=
  ⟨((posixBasename s).data.map Char.toLower).map (fun c => if validPkgChar c then c else '-')⟩

/-- The documentation file of the resulting tree, when the stage succeeded. -/
def docFileAfter (r : Except GenError FS) : Option FileData :=
  match r with
  | .ok s => getFile s agentsPath
  | .error _ => none

theorem headAliasMatch_nil : headAliasMatch [] = false := rfl

theorem headAliasMatch_one (c : Char) : headAliasMatch [c] = false := rfl

theorem headAliasMatch_two (a b : Char) (r : List Char) :
    headAliasMatch (a :: b :: r) = ((a == '@') && (b == '/')) := rfl

theorem headAliasMatch_cons (c : Char) (X : List Char) :
    headAliasMatch (c :: X) = ((c == '@') && ((X.headD (' ')) == '/')) := by
  cases X with
  | nil => rw [headAliasMatch_one]; simp
  | cons x xs => rw [headAliasMatch_two]; rfl

theorem hasAliasOcc_cons (c : Char) (rest : List Char) :
    hasAliasOcc (c :: rest) = ((isQuote c && headAliasMatch rest) || hasAliasOcc rest) := rfl

theorem rewriteAlias_cons3 (tp : List Char) (c d e : Char) (r : List Char) :
    rewriteAlias tp (c :: d :: e :: r) =
      if isQuote c && (d == '@' && e == '/') then c :: (tp ++ rewriteAlias tp r)
      else c :: rewriteAlias tp (d :: e :: r) := rfl

theorem hasAliasOcc_append_nq : ∀ (a : List Char), a.all (fun c => !isQuote c) = true →
    ∀ z, hasAliasOcc (a ++ z) = hasAliasOcc z
  | [], _, z => rfl
  | c :: a', h, z => by
    simp only [List.all_cons, Bool.and_eq_true] at h
    have hc : isQuote c = false := by
      have h1 := h.1
      cases hq : isQuote c
      · rfl
      · rw [hq] at h1; simp at h1
    rw [List.cons_append, hasAliasOcc_cons, hc,
        hasAliasOcc_append_nq a' h.2 z]
    simp

theorem headAliasMatch_tok : ∀ (tok : List Char), headAliasMatch tok = false →
    tok ≠ [('@')] → ∀ z, headAliasMatch (tok ++ '/' :: z) = false
  | [], _, _, z => by
    rw [List.nil_append, headAliasMatch_cons]; simp
  | [c], _, h2, z => by
    have hc : (c == '@') = false := by
      cases hq : (c == '@')
      · rfl
      · exact absurd (by rw [eq_of_beq hq]) h2
    rw [List.cons_append, List.nil_append, headAliasMatch_cons, hc]; simp
  | c :: d :: tk', h1, _, z => by
    rw [headAliasMatch_two] at h1
    exact h1

theorem rewriteAlias_head (tp : List Char) (c : Char) :
    ∀ rest, ∃ y, rewriteAlias tp (c :: rest) = c :: y
  | [] => ⟨[], rfl⟩
  | [d] => ⟨[d], rfl⟩
  | d :: e :: r => by
    rw [rewriteAlias_cons3]
    by_cases g : (isQuote c && (d == '@' && e == '/')) = true
    · exact ⟨tp ++ rewriteAlias tp r, by rw [if_pos g]⟩
    · exact ⟨rewriteAlias tp (d :: e :: r), by rw [if_neg g]⟩

theorem headAliasMatch_rewrite (tp : List Char) (a b : Char) :
    ∀ r2, ((a == '@') && (b == '/')) = false →
      headAliasMatch (rewriteAlias tp (a :: b :: r2)) = false
  | [], h => by
    have hab : rewriteAlias tp [a, b] = [a, b] := rfl
    rw [hab, headAliasMatch_two]; exact h
  | x :: r3, h => by
    rw [rewriteAlias_cons3]
    rcases Bool.and_eq_false_iff.mp h with ha | hb
    · by_cases g : (isQuote a && (b == '@' && x == '/')) = true
      · rw [if_pos g, headAliasMatch_cons, ha]; simp
      · rw [if_neg g, headAliasMatch_cons, ha]; simp
    · have ha : (a == '@') = true ∨ (a == '@') = false := by cases (a == '@') <;> simp
      rcases ha with ha | ha
      · have ha' : a = '@' := eq_of_beq ha
        have hqa : isQuote a = false := by rw [ha']; rfl
        rw [if_neg (by rw [hqa]; simp)]
        obtain ⟨y2, hy2⟩ := rewriteAlias_head tp b (x :: r3)
        rw [hy2, headAliasMatch_cons]
        simp [hb]
      · by_cases g : (isQuote a && (b == '@' && x == '/')) = true
        · rw [if_pos g, headAliasMatch_cons, ha]; simp
        · rw [if_neg g, headAliasMatch_cons, ha]; simp

theorem rewriteAlias_clean (tok : List Char) (hq : tok.all (fun c => !isQuote c) = true)
    (h1 : headAliasMatch tok = false) (h2 : tok ≠ [('@')]) :
    ∀ l, hasAliasOcc (rewriteAlias (tok ++ [('/')]) l) = false
  | [] => rfl
  | [c] => by
    have hone : rewriteAlias (tok ++ [('/')]) [c] = [c] := rfl
    rw [hone, hasAliasOcc_cons, headAliasMatch_nil]
    simp [hasAliasOcc]
  | [c, d] => by
    have htwo : rewriteAlias (tok ++ [('/')]) [c, d] = [c, d] := rfl
    rw [htwo, hasAliasOcc_cons, hasAliasOcc_cons, headAliasMatch_one, headAliasMatch_nil]
    simp [hasAliasOcc]
  | c :: a :: b :: r2 => by
    rw [rewriteAlias_cons3]
    by_cases g : (isQuote c && (a == '@' && b == '/')) = true
    · rw [if_pos g, hasAliasOcc_cons]
      have hap : (tok ++ [('/')]) ++ rewriteAlias (tok ++ [('/')]) r2
          = tok ++ ('/' :: rewriteAlias (tok ++ [('/')]) r2) := by
        rw [List.append_assoc]; rfl
      have htp : (tok ++ [('/')]).all (fun c => !isQuote c) = true := by
        rw [List.all_append, hq]
        simp [isQuote]
      rw [hap, headAliasMatch_tok tok h1 h2]
      rw [← hap, hasAliasOcc_append_nq (tok ++ [('/')]) htp]
      rw [rewriteAlias_clean tok hq h1 h2 r2]
      simp
    · rw [if_neg g, hasAliasOcc_cons]
      rw [rewriteAlias_clean tok hq h1 h2 (a :: b :: r2)]
      cases hqc : isQuote c
      · simp
      · have hg : ((a == '@') && (b == '/')) = false := by
          cases hg' : ((a == '@') && (b == '/'))
          · rfl
          · rw [hqc, hg'] at g; simp at g
        rw [headAliasMatch_rewrite (tok ++ [('/')]) a b r2 hg]
        simp

theorem rewriteAlias_id (tp : List Char) : ∀ l, hasAliasOcc l = false → rewriteAlias tp l = l
  | [], _ => rfl
  | [c], _ => rfl
  | [c, d], _ => rfl
  | c :: a :: b :: r2, h => by
    rw [hasAliasOcc_cons, Bool.or_eq_false_iff] at h
    rw [rewriteAlias_cons3]
    have hg : (isQuote c && (a == '@' && b == '/')) = false := by
      have hh : headAliasMatch (a :: b :: r2) = ((a == '@') && (b == '/')) := rfl
      rw [← hh]; exact h.1
    rw [if_neg (by rw [hg]; simp), rewriteAlias_id tp (a :: b :: r2) h.2]

theorem find?_set_self (p : FPath) (d : FileData) :
    ∀ l : List (FPath × FileData), l.any (fun e => e.1 == p) = true →
      (l.map (fun e => if e.1 == p then (p, d) else e)).find? (fun e => e.1 == p) = some (p, d)
  | [], h => by simp at h
  | e :: l, h => by
    by_cases he : (e.1 == p) = true
    · simp only [List.map_cons, if_pos he]
      rw [List.find?_cons_of_pos _ (by simp)]
    · simp only [List.map_cons, if_neg he]
      rw [List.find?_cons_of_neg _ (by simpa using he)]
      simp only [List.any_cons, Bool.or_eq_true] at h
      rcases h with h | h
      · exact absurd h he
      · exact find?_set_self p d l h

theorem find?_append_new (p : FPath) (d : FileData) :
    ∀ l : List (FPath × FileData), l.any (fun e => e.1 == p) = false →
      (l ++ [(p, d)]).find? (fun e => e.1 == p) = some (p, d)
  | [], _ => by
    simp only [List.nil_append]
    rw [List.find?_cons_of_pos _ (by simp)]
  | e :: l, h => by
    simp only [List.any_cons, Bool.or_eq_false_iff] at h
    simp only [List.cons_append]
    rw [List.find?_cons_of_neg _ (by simp [h.1])]
    exact find?_append_new p d l h.2

theorem getFile_writeFile_self (st : FS) (p : FPath) (d : FileData) :
    getFile (writeFile st p d) p = some d := by
  by_cases h : st.files.any (fun e => e.1 == p) = true
  · have hw : writeFile st p d = ⟨st.files.map (fun e => if e.1 == p then (p, d) else e)⟩ := by
      unfold writeFile; rw [if_pos h]
    rw [hw]
    show ((st.files.map (fun e => if e.1 == p then (p, d) else e)).find?
        (fun e => e.1 == p)).map (fun e => e.2) = some d
    rw [find?_set_self p d st.files h]
    rfl
  · have hw : writeFile st p d = ⟨st.files ++ [(p, d)]⟩ := by
      unfold writeFile; rw [if_neg h]
    rw [hw]
    show ((st.files ++ [(p, d)]).find? (fun e => e.1 == p)).map (fun e => e.2) = some d
    have hfalse : st.files.any (fun e => e.1 == p) = false := by
      cases hx : st.files.any (fun e => e.1 == p)
      · rfl
      · exact absurd hx h
    rw [find?_append_new p d st.files hfalse]
    rfl

theorem beq_false_symm (p q : FPath) (h : (p == q) = false) : (q == p) = false := by
  cases hb : (q == p)
  · rfl
  · rw [eq_of_beq hb] at h
    simp at h

theorem find?_set_ne (p q : FPath) (d : FileData) (hne : (p == q) = false) :
    ∀ l : List (FPath × FileData),
      (l.map (fun e => if e.1 == p then (p, d) else e)).find? (fun e => e.1 == q)
        = l.find? (fun e => e.1 == q)
  | [] => rfl
  | e :: l => by
    by_cases he : (e.1 == p) = true
    · simp only [List.map_cons, if_pos he]
      have hep : e.1 = p := eq_of_beq he
      rw [List.find?_cons_of_neg _ (by simp [hne]),
          List.find?_cons_of_neg _ (by simp [hep, hne]),
          find?_set_ne p q d hne l]
    · simp only [List.map_cons, if_neg he]
      by_cases heq : (e.1 == q) = true
      · rw [List.find?_cons_of_pos _ (by simpa using heq),
            List.find?_cons_of_pos _ (by simpa using heq)]
      · rw [List.find?_cons_of_neg _ (by simpa using heq),
            List.find?_cons_of_neg _ (by simpa using heq),
            find?_set_ne p q d hne l]

theorem find?_append_ne (p q : FPath) (d : FileData) (hne : (p == q) = false) :
    ∀ l : List (FPath × FileData),
      (l ++ [(p, d)]).find? (fun e => e.1 == q) = l.find? (fun e => e.1 == q)
  | [] => by
    simp only [List.nil_append]
    rw [List.find?_cons_of_neg _ (by simp [hne])]
  | e :: l => by
    simp only [List.cons_append]
    by_cases heq : (e.1 == q) = true
    · rw [List.find?_cons_of_pos _ (by simpa using heq),
          List.find?_cons_of_pos _ (by simpa using heq)]
    · rw [List.find?_cons_of_neg _ (by simpa using heq),
          List.find?_cons_of_neg _ (by simpa using heq),
          find?_append_ne p q d hne l]

theorem getFile_writeFile_ne (st : FS) (p q : FPath) (d : FileData)
    (hne : (p == q) = false) : getFile (writeFile st p d) q = getFile st q := by
  by_cases h : st.files.any (fun e => e.1 == p) = true
  · have hw : writeFile st p d = ⟨st.files.map (fun e => if e.1 == p then (p, d) else e)⟩ := by
      unfold writeFile; rw [if_pos h]
    rw [hw]
    show ((st.files.map (fun e => if e.1 == p then (p, d) else e)).find?
        (fun e => e.1 == q)).map (fun e => e.2) = getFile st q
    rw [find?_set_ne p q d hne st.files]
    rfl
  · have hw : writeFile st p d = ⟨st.files ++ [(p, d)]⟩ := by
      unfold writeFile; rw [if_neg h]
    rw [hw]
    show ((st.files ++ [(p, d)]).find? (fun e => e.1 == q)).map (fun e => e.2) = getFile st q
    rw [find?_append_ne p q d hne st.files]
    rfl

theorem rewriteTree_fst (toPfx : String) (e : FPath × FileData) :
    ((if srcFileCond e.1 then
        match e.2 with
        | FileData.text s => (e.1, FileData.text (⟨rewriteAlias toPfx.data s.data⟩ : String))
        | d => (e.1, d)
      else e)).1 = e.1 := by
  by_cases hc : srcFileCond e.1 = true
  · rw [if_pos hc]
    match e with
    | (p0, FileData.text s0) => rfl
    | (p0, FileData.json j) => rfl
  · rw [if_neg hc]

theorem getFile_rewriteTree_ne (toPfx : String) (q : FPath) (hq : srcFileCond q = false) :
    ∀ st : FS, getFile (rewriteAliasInTree toPfx st) q = getFile st q := by
  intro st
  unfold rewriteAliasInTree getFile
  simp only []
  induction st.files with
  | nil => rfl
  | cons e l ih =>
    simp only [List.map_cons]
    by_cases heq : (e.1 == q) = true
    · have hq1 : ((if srcFileCond e.1 then
          match e.2 with
          | FileData.text s => (e.1, FileData.text (⟨rewriteAlias toPfx.data s.data⟩ : String))
          | d => (e.1, d)
        else e)) = e := by
        have : e.1 = q := eq_of_beq heq
        rw [if_neg (by rw [this, hq]; simp)]
      rw [hq1]
      rw [List.find?_cons_of_pos _ (by simpa using heq),
          List.find?_cons_of_pos _ (by simpa using heq)]
    · rw [List.find?_cons_of_neg _ (by
          have := rewriteTree_fst toPfx e
          simpa [this] using heq),
          List.find?_cons_of_neg _ (by simpa using heq)]
      exact ih


theorem aliasCfgStage_notJS (tok : String) (st : FS) (vc : String) (j : JVal)
    (h1 : getFile st (viteConfigPath false) = some (.text vc))
    (h2 : getFile st tsconfigAppPath = some (.json j)) :
    aliasCfgStage false tok st
      = writeFile (writeFile st (viteConfigPath false) (.text (viteAliasReplace tok vc)))
          tsconfigAppPath (.json (rewriteTsconfigJson tok j)) := by
  have h2' : getFile (writeFile st (viteConfigPath false) (.text (viteAliasReplace tok vc)))
      tsconfigAppPath = some (.json j) := by
    rw [getFile_writeFile_ne _ _ _ _ (by rfl)]
    exact h2
  simp only [aliasCfgStage]
  rw [h1]
  simp only []
  simp only [Bool.not_false, Bool.false_eq_true, eq_self_iff_true, if_true, if_false]
  rw [h2']

theorem aliasCfgStage_js (tok : String) (st : FS) (vc : String) (j : JVal)
    (h1 : getFile st (viteConfigPath true) = some (.text vc))
    (h2 : getFile st jsconfigPath = some (.json j)) :
    aliasCfgStage true tok st
      = writeFile (writeFile st (viteConfigPath true) (.text (viteAliasReplace tok vc)))
          jsconfigPath (.json (rewriteTsconfigJson tok j)) := by
  have h2' : getFile (writeFile st (viteConfigPath true) (.text (viteAliasReplace tok vc)))
      jsconfigPath = some (.json j) := by
    rw [getFile_writeFile_ne _ _ _ _ (by rfl)]
    exact h2
  simp only [aliasCfgStage]
  rw [h1]
  simp only []
  simp only [Bool.not_true, Bool.false_eq_true, eq_self_iff_true, if_true, if_false]
  rw [h2']


theorem string_data_append (a b : String) : (a ++ b).data = a.data ++ b.data := rfl

theorem applyFeatureToggles_defaults (t : Template) (tok : String) (st : FS)
    (h : ((tok != ("")) && (tok != ("@"))) = true) :
    applyFeatureToggles ⟨t, true, true, false, tok⟩ st
      = aliasStage (t == Template.js) tok st := by
  show (if ((tok != ("")) && (tok != ("@"))) = true
        then aliasStage (t == Template.js) tok st else st)
      = aliasStage (t == Template.js) tok st
  rw [if_pos h]

theorem rewriteAliasInTree_clean (tok : String)
    (hq : tok.data.all (fun c => !isQuote c) = true)
    (h1 : headAliasMatch tok.data = false) (h2 : tok.data ≠ [('@')])
    (st : FS) (p : FPath) (s : String)
    (hmem : (p, FileData.text s) ∈ (rewriteAliasInTree (tok ++ ("/")) st).files)
    (hcond : srcFileCond p = true) : hasAliasOcc s.data = false := by
  unfold rewriteAliasInTree at hmem
  rw [List.mem_map] at hmem
  obtain ⟨e, he, hfe⟩ := hmem
  by_cases hc : srcFileCond e.1 = true
  · rw [if_pos hc] at hfe
    match e, hfe with
    | (p0, FileData.text s0), hfe =>
      have hs : FileData.text (⟨rewriteAlias (tok ++ ("/")).data s0.data⟩ : String)
          = FileData.text s := congrArg Prod.snd hfe
      have hs2 : (⟨rewriteAlias (tok ++ ("/")).data s0.data⟩ : String) = s := by
        injection hs
      have hdata : s.data = rewriteAlias (tok.data ++ [('/')]) s0.data := by
        rw [← hs2]
        rfl
      rw [hdata]
      exact rewriteAlias_clean tok.data hq h1 h2 s0.data
    | (p0, FileData.json j), hfe =>
      have hs : FileData.json j = FileData.text s := congrArg Prod.snd hfe
      exact absurd hs (by intro hx; cases hx)
  · rw [if_neg hc] at hfe
    rw [hfe] at hc
    exact absurd hcond hc

theorem tscfg_key (tok : String) (hne : tok ≠ ("@")) :
    rewriteTsconfigJson tok (typeCfgJson ("@")) = typeCfgJson tok := by
  have hkey : ((("@/*") : String) == (tok ++ ("/*"))) = false := by
    cases hb : ((("@/*") : String) == (tok ++ ("/*")))
    · rfl
    · exfalso
      have heq : (("@/*") : String) = tok ++ ("/*") := eq_of_beq hb
      have hdl : [('@')] ++ [('/'), ('*')] = tok.data ++ [('/'), ('*')] := by
        have h9 := congrArg String.data heq
        rw [string_data_append] at h9
        exact h9
      have hda : tok.data = [('@')] := (List.append_cancel_right hdl).symm
      exact hne (by
        have h8 := congrArg String.mk hda
        simpa using h8)
  have hkey2 : ((tok ++ ("/*")) == (("@/*") : String)) = false := by
    cases hb : ((tok ++ ("/*")) == (("@/*") : String))
    · rfl
    · exfalso
      have heq := eq_of_beq hb
      rw [heq] at hkey
      simp at hkey
  simp only [rewriteTsconfigJson, typeCfgJson, assocGet, assocSet, assocDelete, truthy]
  simp [hkey, hkey2, List.find?, List.filter, bne]

set_option maxRecDepth 4000 in
/-- C1 (amended): for every template kind and every alias token `t` that is
not the default `@`, is non-empty, contains no quote character, and does
not begin with `@/`, after the Alias Rewriter stage: every source file with
a source-file extension in the resulting tree is free of quote-`@/`
occurrences (over any starting tree), the vite config of the rewritten
template tree carries the alias key `t`, the type-resolution config's path
mapping key is `t/*` with its value list preserved, and files without
default-alias imports (such as ones importing only scoped packages like
`@archway/...`) are left byte-for-byte unchanged. -/
theorem c1_alias_consistency (t : Template) (tok : String)
    (hne : tok ≠ ("@")) (hnil : tok ≠ (""))
    (hq : tok.data.all (fun c => !isQuote c) = true)
    (hpre : headAliasMatch tok.data = false) :
    (∀ st p s, (p, FileData.text s) ∈ (applyFeatureToggles ⟨t, true, true, false, tok⟩ st).files →
        srcFileCond p = true → hasAliasOcc s.data = false)
    ∧ getFile (applyFeatureToggles ⟨t, true, true, false, tok⟩ (templateTree t))
        (viteConfigPath (t == Template.js)) = some (FileData.text (viteConfigText tok))
    ∧ getFile (applyFeatureToggles ⟨t, true, true, false, tok⟩ (templateTree t))
        (typeCfgPathOf t) = some (FileData.json (typeCfgJson tok))
    ∧ (∀ s : String, hasAliasOcc s.data = false →
        (⟨rewriteAlias (tok.data ++ [('/')]) s.data⟩ : String) = s) := by
  have hd : tok.data ≠ [('@')] := by
    intro hx
    exact hne (by
      have h7 := congrArg String.mk hx
      simpa using h7)
  have htok : ((tok != ("")) && (tok != ("@"))) = true := by
    have b1 : (tok == ("")) = false := by
      cases hb : (tok == (""))
      · rfl
      · exact absurd (eq_of_beq hb) hnil
    have b2 : (tok == ("@")) = false := by
      cases hb : (tok == ("@"))
      · rfl
      · exact absurd (eq_of_beq hb) hne
    simp [bne, b1, b2]
  refine ⟨?_, ?_, ?_, ?_⟩
  · intro st p s hmem hcond
    rw [applyFeatureToggles_defaults t tok st htok] at hmem
    exact rewriteAliasInTree_clean tok hq hpre hd
      (aliasCfgStage (t == Template.js) tok st) p s hmem hcond
  · rw [applyFeatureToggles_defaults t tok (templateTree t) htok]
    cases t with
    | ts =>
      show getFile (rewriteAliasInTree (tok ++ ("/"))
        (aliasCfgStage false tok (templateTree Template.ts))) (viteConfigPath false) = _
      rw [getFile_rewriteTree_ne _ _ (by rfl)]
      rw [aliasCfgStage_notJS tok (templateTree Template.ts) (viteConfigText ("@"))
        (typeCfgJson ("@")) rfl rfl]
      rw [getFile_writeFile_ne _ _ _ _ (by rfl)]
      rw [getFile_writeFile_self]
      rfl
    | js =>
      show getFile (rewriteAliasInTree (tok ++ ("/"))
        (aliasCfgStage true tok (templateTree Template.js))) (viteConfigPath true) = _
      rw [getFile_rewriteTree_ne _ _ (by rfl)]
      rw [aliasCfgStage_js tok (templateTree Template.js) (viteConfigText ("@"))
        (typeCfgJson ("@")) rfl rfl]
      rw [getFile_writeFile_ne _ _ _ _ (by rfl)]
      rw [getFile_writeFile_self]
      rfl
    | hybrid =>
      show getFile (rewriteAliasInTree (tok ++ ("/"))
        (aliasCfgStage false tok (templateTree Template.hybrid))) (viteConfigPath false) = _
      rw [getFile_rewriteTree_ne _ _ (by rfl)]
      rw [aliasCfgStage_notJS tok (templateTree Template.hybrid) (viteConfigText ("@"))
        (typeCfgJson ("@")) rfl rfl]
      rw [getFile_writeFile_ne _ _ _ _ (by rfl)]
      rw [getFile_writeFile_self]
      rfl
  · rw [applyFeatureToggles_defaults t tok (templateTree t) htok]
    cases t with
    | ts =>
      show getFile (rewriteAliasInTree (tok ++ ("/"))
        (aliasCfgStage false tok (templateTree Template.ts))) tsconfigAppPath = _
      rw [getFile_rewriteTree_ne _ _ (by rfl)]
      rw [aliasCfgStage_notJS tok (templateTree Template.ts) (viteConfigText ("@"))
        (typeCfgJson ("@")) rfl rfl]
      rw [getFile_writeFile_self]
      rw [tscfg_key tok hne]
    | js =>
      show getFile (rewriteAliasInTree (tok ++ ("/"))
        (aliasCfgStage true tok (templateTree Template.js))) jsconfigPath = _
      rw [getFile_rewriteTree_ne _ _ (by rfl)]
      rw [aliasCfgStage_js tok (templateTree Template.js) (viteConfigText ("@"))
        (typeCfgJson ("@")) rfl rfl]
      rw [getFile_writeFile_self]
      rw [tscfg_key tok hne]
    | hybrid =>
      show getFile (rewriteAliasInTree (tok ++ ("/"))
        (aliasCfgStage false tok (templateTree Template.hybrid))) tsconfigAppPath = _
      rw [getFile_rewriteTree_ne _ _ (by rfl)]
      rw [aliasCfgStage_notJS tok (templateTree Template.hybrid) (viteConfigText ("@"))
        (typeCfgJson ("@")) rfl rfl]
      rw [getFile_writeFile_self]
      rw [tscfg_key tok hne]
  · intro s hs
    rw [rewriteAlias_id _ _ hs]


theorem getFile_rewriteTree_pos (toPfx : String) (q : FPath) (hq : srcFileCond q = true) :
    ∀ l : List (FPath × FileData), ∀ s : String,
      (l.find? (fun e => e.1 == q)).map (fun e => e.2) = some (FileData.text s) →
      ((l.map (fun e =>
          if srcFileCond e.1 then
            match e.2 with
            | FileData.text s0 => (e.1, FileData.text (⟨rewriteAlias toPfx.data s0.data⟩ : String))
            | d => (e.1, d)
          else e)).find? (fun e => e.1 == q)).map (fun e => e.2)
        = some (FileData.text (⟨rewriteAlias toPfx.data s.data⟩ : String))
  | [], s, h => by simp at h
  | e :: l, s, h => by
    by_cases heq : (e.1 == q) = true
    · rw [List.find?_cons_of_pos _ (by simpa using heq)] at h
      have he2 : e.2 = FileData.text s := by
        simpa using h
      have hsc : srcFileCond e.1 = true := by
        rw [eq_of_beq heq]; exact hq
      simp only [List.map_cons, if_pos hsc, he2]
      rw [List.find?_cons_of_pos _ (by simpa using heq)]
      rfl
    · rw [List.find?_cons_of_neg _ (by simpa using heq)] at h
      simp only [List.map_cons]
      have hfst : ((if srcFileCond e.1 then
          match e.2 with
          | FileData.text s0 => (e.1, FileData.text (⟨rewriteAlias toPfx.data s0.data⟩ : String))
          | d => (e.1, d)
        else e)).1 = e.1 := rewriteTree_fst toPfx e
      rw [List.find?_cons_of_neg _ (by simpa [hfst] using heq)]
      exact getFile_rewriteTree_pos toPfx q hq l s h

theorem getFile_rewriteTree_src (toPfx : String) (q : FPath) (hq : srcFileCond q = true)
    (st : FS) (s : String) (h : getFile st q = some (FileData.text s)) :
    getFile (rewriteAliasInTree toPfx st) q
      = some (FileData.text (⟨rewriteAlias toPfx.data s.data⟩ : String)) := by
  unfold getFile rewriteAliasInTree
  exact getFile_rewriteTree_pos toPfx q hq st.files s h

set_option maxRecDepth 4000 in
/-- C1 counterexample: the claim as stated (for every token `t ≠ "@"`,
`t` non-empty) is false: the token `"@` (which contains a quote character)
and the token `@/x` (which begins with `@/`) both leave a residual
quote-`@/` occurrence in the rewritten entry-point source file of the
template tree. -/
theorem c1_alias_counterexample :
    ((("\"@") : String) ≠ ("@") ∧ (("\"@") : String) ≠ ("")
      ∧ srcFileCond (mainPath false) = true
      ∧ getFile (applyFeatureToggles ⟨Template.ts, true, true, false, ("\"@")⟩
            (templateTree Template.ts)) (mainPath false)
          = some (FileData.text (⟨rewriteAlias ((("\"@") ++ ("/")) : String).data
              tmplMainContent.data⟩ : String))
      ∧ hasAliasOcc (rewriteAlias ((("\"@") ++ ("/")) : String).data tmplMainContent.data) = true)
    ∧ ((("@/x") : String) ≠ ("@") ∧ (("@/x") : String) ≠ ("")
      ∧ getFile (applyFeatureToggles ⟨Template.ts, true, true, false, ("@/x")⟩
            (templateTree Template.ts)) (mainPath false)
          = some (FileData.text (⟨rewriteAlias ((("@/x") ++ ("/")) : String).data
              tmplMainContent.data⟩ : String))
      ∧ hasAliasOcc (rewriteAlias ((("@/x") ++ ("/")) : String).data tmplMainContent.data) = true) := by
  refine ⟨⟨by decide, by decide, by rfl, ?_, by rfl⟩, ⟨by decide, by decide, ?_, by rfl⟩⟩
  · rw [applyFeatureToggles_defaults Template.ts ("\"@") (templateTree Template.ts) (by decide)]
    show getFile (rewriteAliasInTree ((("\"@") ++ ("/")))
      (aliasCfgStage false ("\"@") (templateTree Template.ts))) (mainPath false) = _
    rw [getFile_rewriteTree_src _ _ (by rfl) _ tmplMainContent ?hm]
    case hm =>
      rw [aliasCfgStage_notJS ("\"@") (templateTree Template.ts) (viteConfigText ("@"))
        (typeCfgJson ("@")) rfl rfl]
      rw [getFile_writeFile_ne _ _ _ _ (by rfl), getFile_writeFile_ne _ _ _ _ (by rfl)]
      rfl
  · rw [applyFeatureToggles_defaults Template.ts ("@/x") (templateTree Template.ts) (by decide)]
    show getFile (rewriteAliasInTree ((("@/x") ++ ("/")))
      (aliasCfgStage false ("@/x") (templateTree Template.ts))) (mainPath false) = _
    rw [getFile_rewriteTree_src _ _ (by rfl) _ tmplMainContent ?hm2]
    case hm2 =>
      rw [aliasCfgStage_notJS ("@/x") (templateTree Template.ts) (viteConfigText ("@"))
        (typeCfgJson ("@")) rfl rfl]
      rw [getFile_writeFile_ne _ _ _ _ (by rfl), getFile_writeFile_ne _ _ _ _ (by rfl)]
      rfl

set_option maxRecDepth 4000 in
/-- C1 witness: the amended theorem applied at the TS template with the
concrete token `app`. -/
theorem c1_alias_consistency_witness :
    getFile (applyFeatureToggles ⟨Template.ts, true, true, false, ("app")⟩
        (templateTree Template.ts)) (viteConfigPath (Template.ts == Template.js))
      = some (FileData.text (viteConfigText ("app")))
    ∧ getFile (applyFeatureToggles ⟨Template.ts, true, true, false, ("app")⟩
        (templateTree Template.ts)) (typeCfgPathOf Template.ts)
      = some (FileData.json (typeCfgJson ("app")))
    ∧ (⟨rewriteAlias ((("app") : String).data ++ [('/')])
        (("import x from \"@archway/valet\";") : String).data⟩ : String)
      = ("import x from \"@archway/valet\";") :=
  ⟨(c1_alias_consistency Template.ts ("app") (by decide) (by decide) (by decide) (by decide)).2.1,
   (c1_alias_consistency Template.ts ("app") (by decide) (by decide) (by decide) (by decide)).2.2.1,
   (c1_alias_consistency Template.ts ("app") (by decide) (by decide) (by decide) (by decide)).2.2.2
     (("import x from \"@archway/valet\";")) (by decide)⟩

/-- C10: for every template kind, running the Feature Toggle Engine with
the default configuration (router on, zustand on, minimal off, alias `@`)
returns every starting tree unchanged: no file rewritten, no directory
deleted, no dependency removed, and the alias rewrite skipped. -/
theorem c10_default_frame (t : Template) (st : FS) :
    applyFeatureToggles ⟨t, true, true, false, ("@")⟩ st = st := by
  cases t <;> rfl

set_option maxRecDepth 16000 in
/-- C2: for every template kind and every store setting, with router on and
minimal on, the engine writes a root component with exactly one route to
the lazily-loaded landing page and a Suspense loading placeholder, deletes
the secondary-page directory, and keeps the router dependency in the
manifest. -/
theorem c2_router_minimal_shape (t : Template) (store : Bool) :
    c2Shape t store = true := by
  cases t <;> cases store <;> rfl

set_option maxRecDepth 16000 in
/-- C3: for every template kind and every store/minimal setting, with
router off the engine removes the router dependency, writes an entry point
rendering the root component directly without any routing import, writes a
root component rendering only the landing page, and deletes the
secondary-page directory. -/
theorem c3_no_router_shape (t : Template) (store minimal : Bool) :
    c3Shape t store minimal = true := by
  cases t <;> cases store <;> cases minimal <;> rfl

set_option maxRecDepth 16000 in
/-- C4: for every template kind and every router/minimal combination, with
store off the final tree has no state-store directory and the final
manifest has no zustand dependency entry. -/
theorem c4_store_removed_invariant (t : Template) (router minimal : Bool) :
    c4Shape t router minimal = true := by
  cases t <;> cases router <;> cases minimal <;> rfl

theorem assocGet_delete_self (fs : List (String × JVal)) (k : String) :
    assocGet (assocDelete fs k) k = none := by
  unfold assocGet assocDelete
  rw [List.find?_eq_none.mpr]
  · rfl
  · intro x hx
    have hm := (List.mem_filter.mp hx).2
    intro hb
    simp only [bne] at hm
    rw [hb] at hm
    simp at hm

theorem afind_set_self (k : String) (v : JVal) :
    ∀ fs : List (String × JVal), fs.any (fun e => e.1 == k) = true →
      (fs.map (fun e => if e.1 == k then (k, v) else e)).find? (fun e => e.1 == k) = some (k, v)
  | [], h => by simp at h
  | e :: l, h => by
    by_cases he : (e.1 == k) = true
    · simp only [List.map_cons, if_pos he]
      rw [List.find?_cons_of_pos _ (by simp)]
    · simp only [List.map_cons, if_neg he]
      rw [List.find?_cons_of_neg _ (by simpa using he)]
      simp only [List.any_cons, Bool.or_eq_true] at h
      rcases h with h | h
      · exact absurd h he
      · exact afind_set_self k v l h

theorem afind_append_new (k : String) (v : JVal) :
    ∀ fs : List (String × JVal), fs.any (fun e => e.1 == k) = false →
      (fs ++ [(k, v)]).find? (fun e => e.1 == k) = some (k, v)
  | [], _ => by
    simp only [List.nil_append]
    rw [List.find?_cons_of_pos _ (by simp)]
  | e :: l, h => by
    simp only [List.any_cons, Bool.or_eq_false_iff] at h
    simp only [List.cons_append]
    rw [List.find?_cons_of_neg _ (by simp [h.1])]
    exact afind_append_new k v l h.2

theorem assocGet_set_self (fs : List (String × JVal)) (k : String) (v : JVal) :
    assocGet (assocSet fs k v) k = some v := by
  by_cases h : fs.any (fun e => e.1 == k) = true
  · have hw : assocSet fs k v = fs.map (fun e => if e.1 == k then (k, v) else e) := by
      unfold assocSet; rw [if_pos h]
    rw [hw]
    show ((fs.map (fun e => if e.1 == k then (k, v) else e)).find?
        (fun e => e.1 == k)).map (fun e => e.2) = some v
    rw [afind_set_self k v fs h]
    rfl
  · have hfalse : fs.any (fun e => e.1 == k) = false := by
      cases hx : fs.any (fun e => e.1 == k)
      · rfl
      · exact absurd hx h
    have hw : assocSet fs k v = fs ++ [(k, v)] := by
      unfold assocSet; rw [if_neg h]
    rw [hw]
    show ((fs ++ [(k, v)]).find? (fun e => e.1 == k)).map (fun e => e.2) = some v
    rw [afind_append_new k v fs hfalse]
    rfl

theorem depEntry_obj (dep : String) (fs : List (String × JVal)) :
    depEntry (JVal.obj fs) dep
      = (match assocGet fs ("dependencies") with
         | some (JVal.obj dfs) => assocGet dfs dep
         | _ => none) := rfl

theorem removeDep_obj (dep : String) (fs : List (String × JVal)) :
    removeDepMutator dep (JVal.obj fs)
      = (match assocGet fs ("dependencies") with
         | some (JVal.obj dfs) =>
           (match assocGet dfs dep with
            | some v =>
              if truthy v then
                JVal.obj (assocSet fs ("dependencies") (JVal.obj (assocDelete dfs dep)))
              else JVal.obj fs
            | none => JVal.obj fs)
         | _ => JVal.obj fs) := rfl

theorem removeDep_eq_deps (dep : String) (fs dfs : List (String × JVal))
    (hd : assocGet fs ("dependencies") = some (JVal.obj dfs)) :
    removeDepMutator dep (JVal.obj fs)
      = (match assocGet dfs dep with
         | some v =>
           if truthy v then
             JVal.obj (assocSet fs ("dependencies") (JVal.obj (assocDelete dfs dep)))
           else JVal.obj fs
         | none => JVal.obj fs) := by
  rw [removeDep_obj, hd]

/-- C9: the dependency-removal rule of the Manifest Merger is idempotent:
for every manifest, applying the removal rule for a dependency twice yields
the same manifest as applying it once, and applying it to a manifest
already lacking the dependency leaves the manifest unchanged. -/
theorem c9_removal_idempotent (dep : String) :
    (∀ pkg : JVal, removeDepMutator dep (removeDepMutator dep pkg) = removeDepMutator dep pkg)
    ∧ (∀ pkg : JVal, depEntry pkg dep = none → removeDepMutator dep pkg = pkg) := by
  have habsent : ∀ pkg : JVal, depEntry pkg dep = none → removeDepMutator dep pkg = pkg := by
    intro pkg h
    cases pkg with
    | obj fs =>
      rw [depEntry_obj] at h
      cases hd : assocGet fs ("dependencies") with
      | none => rw [removeDep_obj, hd]
      | some d =>
        rw [hd] at h
        cases d with
        | obj dfs =>
          have h2 : assocGet dfs dep = none := h
          rw [removeDep_eq_deps dep fs dfs hd, h2]
        | null => rw [removeDep_obj, hd]
        | bool b => rw [removeDep_obj, hd]
        | num n => rw [removeDep_obj, hd]
        | str s => rw [removeDep_obj, hd]
        | arr xs => rw [removeDep_obj, hd]
    | null => rfl
    | bool b => rfl
    | num n => rfl
    | str s => rfl
    | arr xs => rfl
  refine ⟨?_, habsent⟩
  intro pkg
  cases pkg with
  | obj fs =>
    cases hd : assocGet fs ("dependencies") with
    | none =>
      have hr : removeDepMutator dep (JVal.obj fs) = JVal.obj fs := by
        rw [removeDep_obj, hd]
      rw [hr, hr]
    | some d =>
      cases d with
      | obj dfs =>
        cases hdep : assocGet dfs dep with
        | none =>
          have hr : removeDepMutator dep (JVal.obj fs) = JVal.obj fs := by
            rw [removeDep_eq_deps dep fs dfs hd, hdep]
          rw [hr, hr]
        | some v =>
          by_cases htr : truthy v = true
          · have hr : removeDepMutator dep (JVal.obj fs)
                = JVal.obj (assocSet fs ("dependencies") (JVal.obj (assocDelete dfs dep))) := by
              rw [removeDep_eq_deps dep fs dfs hd, hdep]
              show (if truthy v = true then
                  JVal.obj (assocSet fs ("dependencies") (JVal.obj (assocDelete dfs dep)))
                else JVal.obj fs) = _
              rw [if_pos htr]
            rw [hr]
            apply habsent
            rw [depEntry_obj, assocGet_set_self]
            show assocGet (assocDelete dfs dep) dep = none
            exact assocGet_delete_self dfs dep
          · have hr : removeDepMutator dep (JVal.obj fs) = JVal.obj fs := by
              rw [removeDep_eq_deps dep fs dfs hd, hdep]
              show (if truthy v = true then
                  JVal.obj (assocSet fs ("dependencies") (JVal.obj (assocDelete dfs dep)))
                else JVal.obj fs) = _
              rw [if_neg htr]
            rw [hr, hr]
      | null =>
        have hr : removeDepMutator dep (JVal.obj fs) = JVal.obj fs := by
          rw [removeDep_obj, hd]
        rw [hr, hr]
      | bool b =>
        have hr : removeDepMutator dep (JVal.obj fs) = JVal.obj fs := by
          rw [removeDep_obj, hd]
        rw [hr, hr]
      | num n =>
        have hr : removeDepMutator dep (JVal.obj fs) = JVal.obj fs := by
          rw [removeDep_obj, hd]
        rw [hr, hr]
      | str s =>
        have hr : removeDepMutator dep (JVal.obj fs) = JVal.obj fs := by
          rw [removeDep_obj, hd]
        rw [hr, hr]
      | arr xs =>
        have hr : removeDepMutator dep (JVal.obj fs) = JVal.obj fs := by
          rw [removeDep_obj, hd]
        rw [hr, hr]
  | null => rfl
  | bool b => rfl
  | num n => rfl
  | str s => rfl
  | arr xs => rfl

/-- C9 witness: the store-removal rule applied to a concrete manifest
lacking the zustand dependency. -/
theorem c9_removal_idempotent_witness :
    depEntry (JVal.obj [(("dependencies"), JVal.obj [(("react"), JVal.str ("^18.3.0"))])])
        ("zustand") = none
    ∧ removeDepMutator ("zustand")
        (JVal.obj [(("dependencies"), JVal.obj [(("react"), JVal.str ("^18.3.0"))])])
      = JVal.obj [(("dependencies"), JVal.obj [(("react"), JVal.str ("^18.3.0"))])] :=
  ⟨rfl, (c9_removal_idempotent ("zustand")).2 _ rfl⟩


theorem norm_eq (s : String) :
    normalizePkgName s = (if slugOf s == ("") then ("valet-app") else slugOf s) := rfl

theorem mergedField_ok (p : JVal) (k : String) :
    mergedField (Except.ok p) k = getField p k := rfl

theorem mergedDepRange_ok (p : JVal) (dep : String) :
    mergedDepRange (Except.ok p) dep
      = (match getField p ("dependencies") with
         | some (JVal.obj dfs) => assocGet dfs dep
         | _ => none) := rfl

theorem valetDepStep_pair (range : String) (n0v : JVal) (dfs : List (String × JVal)) :
    valetDepStep range (JVal.obj [(("name"), n0v), (("dependencies"), JVal.obj dfs)])
      = (if valetNe dfs range then
           JVal.obj (assocSet [(("name"), n0v), (("dependencies"), JVal.obj dfs)] ("dependencies")
             (JVal.obj (assocSet dfs ("@archway/valet") (JVal.str range))))
         else JVal.obj [(("name"), n0v), (("dependencies"), JVal.obj dfs)]) := rfl

theorem manifestStage_pair (dir : String) (env cva ver : Option String) (n0 : String)
    (dfs : List (String × JVal)) :
    manifestStage dir env cva ver
        (some (JVal.obj [(("name"), JVal.str n0), (("dependencies"), JVal.obj dfs)]))
      = Except.ok (valetDepStep (valetMinorRange (resolveValetMinor env cva ver))
          (JVal.obj [(("name"), JVal.str (normalizePkgName dir)),
                     (("dependencies"), JVal.obj dfs)])) := rfl

theorem bne_false_to_eq (s r : String) (h : (s != r) = false) : s = r := by
  simp only [bne] at h
  cases hx : (s == r)
  · rw [hx] at h; simp at h
  · exact eq_of_beq hx

theorem valetDep_lookup (range : String) (n0v : JVal) (dfs : List (String × JVal)) :
    (match getField (valetDepStep range
        (JVal.obj [(("name"), n0v), (("dependencies"), JVal.obj dfs)])) ("dependencies") with
     | some (JVal.obj d2) => assocGet d2 ("@archway/valet")
     | _ => none) = some (JVal.str range) := by
  rw [valetDepStep_pair]
  by_cases hv : valetNe dfs range = true
  · rw [if_pos hv]
    have hstep : getField (JVal.obj (assocSet [(("name"), n0v), (("dependencies"), JVal.obj dfs)]
        ("dependencies") (JVal.obj (assocSet dfs ("@archway/valet") (JVal.str range)))))
        ("dependencies") = some (JVal.obj (assocSet dfs ("@archway/valet") (JVal.str range))) := rfl
    rw [hstep]
    show assocGet (assocSet dfs ("@archway/valet") (JVal.str range)) ("@archway/valet")
      = some (JVal.str range)
    exact assocGet_set_self _ _ _
  · rw [if_neg hv]
    have hstep : getField (JVal.obj [(("name"), n0v), (("dependencies"), JVal.obj dfs)])
        ("dependencies") = some (JVal.obj dfs) := rfl
    rw [hstep]
    show assocGet dfs ("@archway/valet") = some (JVal.str range)
    have hv2 : valetNe dfs range = false := by
      cases hx : valetNe dfs range
      · rfl
      · exact absurd hx hv
    unfold valetNe at hv2
    cases hg : assocGet dfs ("@archway/valet") with
    | none =>
      rw [hg] at hv2
      have hx : (true : Bool) = false := hv2
      exact Bool.noConfusion hx
    | some v =>
      rw [hg] at hv2
      cases v with
      | str s =>
        have hbe : (s != range) = false := hv2
        rw [bne_false_to_eq s range hbe]
      | null => exact Bool.noConfusion (show (true : Bool) = false from hv2)
      | bool b => exact Bool.noConfusion (show (true : Bool) = false from hv2)
      | num n => exact Bool.noConfusion (show (true : Bool) = false from hv2)
      | arr xs => exact Bool.noConfusion (show (true : Bool) = false from hv2)
      | obj o => exact Bool.noConfusion (show (true : Bool) = false from hv2)

theorem valetDep_name (range : String) (n0v : JVal) (dfs : List (String × JVal)) :
    getField (valetDepStep range
        (JVal.obj [(("name"), n0v), (("dependencies"), JVal.obj dfs)])) ("name") = some n0v := by
  rw [valetDepStep_pair]
  by_cases hv : valetNe dfs range = true
  · rw [if_pos hv]
    rfl
  · rw [if_neg hv]
    rfl

theorem resolve_env (cva ver : Option String) (e : String) (he : e ≠ ("")) :
    resolveValetMinor (some e) cva ver = e := by
  have ht : truthyOptStr (some e) = true := by
    show (e != ("")) = true
    cases hb : (e == (""))
    · simp [bne, hb]
    · exact absurd (eq_of_beq hb) he
  unfold resolveValetMinor
  rw [ht]
  simp

theorem resolve_cva (ver : Option String) (c : String) (hc : c ≠ ("")) :
    resolveValetMinor none (some c) ver = c := by
  have ht : truthyOptStr (some c) = true := by
    show (c != ("")) = true
    cases hb : (c == (""))
    · simp [bne, hb]
    · exact absurd (eq_of_beq hb) hc
  unfold resolveValetMinor
  rw [ht, show truthyOptStr none = false from rfl]
  simp


/-- C7: after the Manifest Merger, the `@archway/valet` range equals the
caret range anchored at patch zero of the resolved minor line, where the
minor line follows the precedence: truthy env override, else truthy
packaged configuration, else the tool version's MAJOR.MINOR (defaulting to
0.30). -/
theorem c7_valet_range (dir : String) (env cva ver : Option String) (n0 : String)
    (dfs : List (String × JVal)) :
    mergedDepRange (manifestStage dir env cva ver
        (some (JVal.obj [(("name"), JVal.str n0), (("dependencies"), JVal.obj dfs)])))
        ("@archway/valet")
      = some (JVal.str (valetMinorRange (resolveValetMinor env cva ver)))
    ∧ (∀ e : String, e ≠ ("") → resolveValetMinor (some e) cva ver = e)
    ∧ (∀ c : String, c ≠ ("") → resolveValetMinor none (some c) ver = c)
    ∧ resolveValetMinor none none (some ("2.5.17")) = ("2.5")
    ∧ valetMinorRange (resolveValetMinor none none none) = ("^0.30.0")
    ∧ (∀ m : String, valetMinorRange m = ("^") ++ m ++ (".0")) := by
  refine ⟨?_, fun e he => resolve_env cva ver e he, fun c hc => resolve_cva ver c hc,
    rfl, rfl, fun m => rfl⟩
  rw [manifestStage_pair, mergedDepRange_ok]
  exact valetDep_lookup _ _ dfs

/-- C7 witness: the merger applied to a concrete manifest, and the
precedence rules at concrete override values. -/
theorem c7_valet_range_witness :
    mergedDepRange (manifestStage ("demo") none none none
        (some (JVal.obj [(("name"), JVal.str ("x")),
          (("dependencies"), JVal.obj [(("react"), JVal.str ("^18.3.0"))])])))
        ("@archway/valet")
      = some (JVal.str ("^0.30.0"))
    ∧ resolveValetMinor (some ("0.31")) none none = ("0.31")
    ∧ resolveValetMinor none (some ("0.9")) none = ("0.9") := by
  refine ⟨?_, ?_, ?_⟩
  · have h := (c7_valet_range ("demo") none none none ("x") [(("react"), JVal.str ("^18.3.0"))]).1
    exact h
  · exact (c7_valet_range ("demo") (some ("0.31")) none none ("x") []).2.1 ("0.31") (by decide)
  · exact (c7_valet_range ("demo") none (some ("0.9")) none ("x") []).2.2.1 ("0.9") (by decide)

/-- C6: the Manifest Merger sets the manifest name to the normalized slug
of the directory basename (lowercased, characters outside `[a-z0-9-_.]`
replaced by `-`); the input `My Cool App!` yields `my-cool-app-`; the
result is never empty, consists only of allowed characters, and an empty
slug falls back to `valet-app`. -/
theorem c6_manifest_name (dir : String) (env cva ver : Option String) (n0 : String)
    (dfs : List (String × JVal)) :
    normalizePkgName ("My Cool App!") = ("my-cool-app-")
    ∧ mergedField (manifestStage dir env cva ver
        (some (JVal.obj [(("name"), JVal.str n0), (("dependencies"), JVal.obj dfs)])))
        ("name") = some (JVal.str (normalizePkgName dir))
    ∧ (∀ s : String, normalizePkgName s ≠ (""))
    ∧ (∀ s : String, (normalizePkgName s).data.all validPkgChar = true)
    ∧ (∀ s : String, slugOf s = ("") → normalizePkgName s = ("valet-app")) := by
  refine ⟨rfl, ?_, ?_, ?_, ?_⟩
  · rw [manifestStage_pair, mergedField_ok]
    exact valetDep_name _ _ dfs
  · intro s
    rw [norm_eq]
    by_cases hb : (slugOf s == ("")) = true
    · rw [if_pos hb]
      decide
    · rw [if_neg hb]
      intro h
      exact hb (by rw [h]; rfl)
  · intro s
    rw [norm_eq]
    by_cases hb : (slugOf s == ("")) = true
    · rw [if_pos hb]
      decide
    · rw [if_neg hb]
      show (((posixBasename s).data.map Char.toLower).map
        (fun c => if validPkgChar c then c else '-')).all validPkgChar = true
      rw [List.all_map, List.all_map]
      rw [List.all_eq_true]
      intro c _
      by_cases hc : validPkgChar (Char.toLower c) = true
      · simp only [Function.comp]
        rw [if_pos hc]
        exact hc
      · simp only [Function.comp]
        rw [if_neg hc]
        decide
  · intro s h
    rw [norm_eq, h]
    rfl

/-- C6 witness: the merger run on the directory `My Cool App!` and the
fallback at the empty input. -/
theorem c6_manifest_name_witness :
    mergedField (manifestStage ("My Cool App!") none none none
        (some (JVal.obj [(("name"), JVal.str ("x")), (("dependencies"), JVal.obj [])])))
        ("name") = some (JVal.str ("my-cool-app-"))
    ∧ normalizePkgName ("") = ("valet-app") := by
  refine ⟨?_, ?_⟩
  · have h := (c6_manifest_name ("My Cool App!") none none none ("x") []).2.1
    rw [h]
    rfl
  · exact (c6_manifest_name ("") none none none ("x") []).2.2.2.2 ("") rfl

/-- C8 (amended): the ManifestInvalid abort fires exactly for an
unparseable manifest or one parsing to a JS-falsy value (null, false, 0,
the empty string); every parseable JSON object passes the check, and a
truthy non-object primitive such as a non-empty string passes the check
too, failing later with a type error when the name is assigned, not with
ManifestInvalid. -/
theorem c8_manifest_invalid (dir : String) (env cva ver : Option String) :
    (∀ fields : List (String × JVal),
        stageOk (manifestStage dir env cva ver (some (JVal.obj fields))) = true)
    ∧ manifestStage dir env cva ver none = Except.error GenError.manifestInvalid
    ∧ (manifestStage dir env cva ver (some JVal.null) = Except.error GenError.manifestInvalid
        ∧ manifestStage dir env cva ver (some (JVal.bool false)) = Except.error GenError.manifestInvalid
        ∧ manifestStage dir env cva ver (some (JVal.num 0)) = Except.error GenError.manifestInvalid
        ∧ manifestStage dir env cva ver (some (JVal.str (""))) = Except.error GenError.manifestInvalid)
    ∧ (∀ s : String, s ≠ ("") →
        manifestStage dir env cva ver (some (JVal.str s)) = Except.error GenError.typeError) := by
  refine ⟨fun fields => rfl, rfl, ⟨rfl, rfl, rfl, rfl⟩, ?_⟩
  intro s hs
  have ht : truthy (JVal.str s) = true := by
    show (s != ("")) = true
    cases hb : (s == (""))
    · simp [bne, hb]
    · exact absurd (eq_of_beq hb) hs
  show (if (!truthy (JVal.str s)) = true then Except.error GenError.manifestInvalid
        else Except.error GenError.typeError) = Except.error GenError.typeError
  rw [ht]
  simp

/-- C8 counterexample: the manifest `"x"` is parseable JSON without an
object shape, yet generation does not fail with the ManifestInvalid
condition — the truthiness check passes it and the failure is a type
error. -/
theorem c8_manifest_counterexample :
    isObjJ (JVal.str ("x")) = false
    ∧ manifestStage ("demo") none none none (some (JVal.str ("x")))
        = Except.error GenError.typeError
    ∧ GenError.typeError ≠ GenError.manifestInvalid :=
  ⟨rfl, rfl, by decide⟩

/-- C8 witness: the amended theorem at a concrete object manifest and a
concrete non-empty string manifest. -/
theorem c8_manifest_invalid_witness :
    stageOk (manifestStage ("demo") none none none
        (some (JVal.obj [(("name"), JVal.str ("x"))]))) = true
    ∧ manifestStage ("demo") none none none (some (JVal.str ("abc")))
        = Except.error GenError.typeError :=
  ⟨(c8_manifest_invalid ("demo") none none none).1 [(("name"), JVal.str ("x"))],
   (c8_manifest_invalid ("demo") none none none).2.2.2 ("abc") (by decide)⟩

theorem getFile_rmFile_self (st : FS) (p : FPath) : getFile (rmFile st p) p = none := by
  unfold getFile rmFile
  rw [List.find?_eq_none.mpr]
  · rfl
  · intro x hx hb
    have hm := (List.mem_filter.mp hx).2
    simp only [bne] at hm
    rw [hb] at hm
    simp at hm

/-- C5 (amended): when documentation is not requested, the renderer
deletes any existing document and returns successfully regardless of the
template asset; when documentation is requested and the shared template
asset cannot be read, the renderer returns successfully with the tree
untouched (it skips gracefully instead of failing fatally); when the asset
is readable, the rendered document is written. -/
theorem c5_doc_renderer :
    (∀ (t : Template) (r z m : Bool) (al : String) (asset : Option String) (st : FS),
        generateAgentsDoc false t r z m al asset st = Except.ok (rmFile st agentsPath)
        ∧ docFileAfter (generateAgentsDoc false t r z m al asset st) = none)
    ∧ (∀ (t : Template) (r z m : Bool) (al : String) (st : FS),
        generateAgentsDoc true t r z m al none st = Except.ok st)
    ∧ (∀ (t : Template) (r z m : Bool) (al : String) (st : FS) (base : String),
        docFileAfter (generateAgentsDoc true t r z m al (some base) st)
          = some (FileData.text (renderAgentsDoc base t r z m al))) := by
  refine ⟨?_, fun t r z m al st => rfl, ?_⟩
  · intro t r z m al asset st
    refine ⟨rfl, ?_⟩
    show getFile (rmFile st agentsPath) agentsPath = none
    exact getFile_rmFile_self st agentsPath
  · intro t r z m al st base
    show getFile (writeFile st agentsPath (FileData.text (renderAgentsDoc base t r z m al)))
      agentsPath = _
    rw [getFile_writeFile_self]

/-- C5 counterexample: with documentation requested and the template
asset unreadable, the renderer neither aborts nor signals
DocTemplateMissing — it returns the tree unchanged with a success
outcome. -/
theorem c5_doc_missing_counterexample :
    generateAgentsDoc true Template.ts true true false ("@") none (templateTree Template.ts)
      = Except.ok (templateTree Template.ts)
    ∧ docOk (generateAgentsDoc true Template.ts true true false ("@") none
        (templateTree Template.ts)) = true :=
  ⟨rfl, rfl⟩


end CVA
